import Mathlib

/-!
Verification of the ProjectMonitor telemetry system.

This file shallowly embeds the protocol core of the repository:

* `src/server/main.py` — the Monitor Server: the websocket endpoint that
  tracks agent sessions (`websocket_endpoint`), the in-memory
  `registered_clients` / `offline_clients` caches, and `delete_client`;
* `src/register/main.py` — the Register Service websocket endpoint;
* `src/common/database.py` — `ClientDAO`, `RecordDAO` and the `Record`
  schema over the SQLite store;
* `src/common/models.py` — `Report`, `Command.create_client_report`;
* `src/common/system_info.py` — `SystemInfo.get_system_report`;
* `src/client/main.py` — the agent's `connect_to_server` /
  `periodic_report` loops (as a small-step transition system).

Python dicts are modelled as insertion-ordered association lists, the
SQLite tables as association lists / row lists, and datetimes as natural
numbers (epoch milliseconds).
-/

namespace PM

/-- Association list with string keys modelling a Python dict: insertion
order is preserved and updating an existing key keeps its position,
exactly as CPython dicts behave. -/
abbrev Dict (α : Type) := List (String × α)

/-- Lookup of a key in a dict. -/
def dictLookup {α : Type} (k : String) : Dict α → Option α
  | [] => none
  | (k2, v) :: t => if k2 = k then some v else dictLookup k t

/-- Python `d[k] = v`: update in place if the key exists, else append. -/
def dictUpsert {α : Type} (k : String) (v : α) : Dict α → Dict α
  | [] => [(k, v)]
  | (k2, v2) :: t => if k2 = k then (k, v) :: t else (k2, v2) :: dictUpsert k v t

/-- Python `k in d`. -/
def dictContains {α : Type} (k : String) (d : Dict α) : Bool :=
  (dictLookup k d).isSome

/-- Update the value stored at a key only when the key is present
(`ClientDAO.set_offline`: the UPDATE touches an existing row only). -/
def setIfPresent {α : Type} (k : String) (v : α) : Dict α → Dict α
  | [] => []
  | (k2, v2) :: t => if k2 = k then (k2, v) :: t else (k2, v2) :: setIfPresent k v t

/-- Python `del d[k]` / SQL DELETE by unique key. -/
def removeKey {α : Type} (k : String) : Dict α → Dict α
  | [] => []
  | (k2, v2) :: t => if k2 = k then removeKey k t else (k2, v2) :: removeKey k t

/-- Boolean membership in a list of strings. -/
def strMem (n : String) : List String → Bool
  | [] => false
  | m :: t => if m = n then true else strMem n t

/-- Remove every occurrence of a string from a list
(the `offline_clients[:] = [c for c in offline_clients if c.name != name]`
comprehension in `src/server/main.py`). -/
def removeStr (n : String) : List String → List String
  | [] => []
  | m :: t => if m = n then removeStr n t else m :: removeStr n t

/-!
Monitor Server (`src/server/main.py`).

A live telemetry channel that has delivered its `CLIENT_ONLINE` is a
session: the websocket task holds the agent name in its local
`client_name`.  `sessions` lists the open channels as
(channel id, agent name) pairs — this is the SessionRecord set of the
spec.  `dbOnline` is the persisted `clients` table restricted to its
`online` column (`ClientDAO`), `registered` is the in-memory
`registered_clients` cache (value: the `online` field of the stored
`Client` object) and `offlineList` records the names appended to
`offline_clients`.
-/

structure MonState where
  sessions : List (Nat × String)
  dbOnline : Dict Bool
  registered : Dict Bool
  offlineList : List String
deriving DecidableEq

/-- Events processed by the Monitor Server: a channel delivering its
`CLIENT_ONLINE` (which also covers the websocket accept), a transport
closure handled by the `WebSocketDisconnect` branch, and the
administrative `/delclient` request. -/
inductive MonEvent
  | connect (c : Nat) (n : String)
  | disconnect (c : Nat)
  | delClient (n : String)
deriving DecidableEq

/-- Name held by channel `c`, if `c` is a live session. -/
def lookupSession (c : Nat) : List (Nat × String) → Option String
  | [] => none
  | (c2, n) :: t => if c2 = c then some n else lookupSession c t

/-- Drop the record of channel `c` (channel ids identify a single open
transport, so at most one record is ever removed on reachable states). -/
def removeSessions (c : Nat) : List (Nat × String) → List (Nat × String)
  | [] => []
  | (c2, n) :: t => if c2 = c then removeSessions c t else (c2, n) :: removeSessions c t

/-- One step of the Monitor Server, translated from
`websocket_endpoint` and `delete_client` in `src/server/main.py`:

* `connect c n` — the `CLIENT_ONLINE` branch: store the client in
  `registered_clients` (the agent sends `online=True`), persist it with
  `ClientDAO.create_or_update(db, name, ip, True)`, and drop the name
  from `offline_clients`;
* `disconnect c` — the `WebSocketDisconnect` handler: the transport of
  channel `c` is closed (the session record dies with it);
  `manager.disconnect` raises `ValueError` when the websocket was
  already removed, aborting the handler before any further effect, which
  the `none` branch models; otherwise, if `client_name` is still in
  `registered_clients`, the client object is flipped offline, appended
  to `offline_clients`, and `ClientDAO.set_offline` updates the row when
  it exists;
* `delClient n` — `delete_client`: `ClientDAO.delete` removes the row if
  present; only on success are the in-memory caches purged. -/
def monStep (s : MonState) : MonEvent → MonState
  | .connect c n =>
      { sessions := (c, n) :: s.sessions
        dbOnline := dictUpsert n true s.dbOnline
        registered := dictUpsert n true s.registered
        offlineList := removeStr n s.offlineList }
  | .disconnect c =>
      match lookupSession c s.sessions with
      | none => s
      | some n =>
          if dictContains n s.registered then
            { sessions := removeSessions c s.sessions
              dbOnline := setIfPresent n false s.dbOnline
              registered := dictUpsert n false s.registered
              offlineList := s.offlineList ++ [n] }
          else { s with sessions := removeSessions c s.sessions }
  | .delClient n =>
      if dictContains n s.dbOnline then
        { s with
            dbOnline := removeKey n s.dbOnline
            registered := removeKey n s.registered
            offlineList := removeStr n s.offlineList }
      else s

/-- The Monitor Server before any event: empty caches, empty store. -/
def initMon : MonState := { sessions := [], dbOnline := [], registered := [], offlineList := [] }

/-- Process a sequence of events. -/
def runMon (s : MonState) (tr : List MonEvent) : MonState :=
  tr.foldl monStep s

/-- Agent names of the live sessions. -/
def namesOfSessions (ss : List (Nat × String)) : List String :=
  ss.map (fun p => p.2)

/-- The persisted `online` flag a reader sees for agent `n`: the row's
flag when a row exists, otherwise the agent is not listed online. -/
def onlineFlag (s : MonState) (n : String) : Bool :=
  (dictLookup n s.dbOnline).getD false

/-!
Basic dictionary lemmas.
-/

theorem dictLookup_upsert_self {α : Type} (k : String) (v : α) (d : Dict α) :
    dictLookup k (dictUpsert k v d) = some v := by
  induction d with
  | nil => simp [dictUpsert, dictLookup]
  | cons h t ih =>
      obtain ⟨k2, v2⟩ := h
      by_cases hk : k2 = k <;> simp [dictUpsert, hk, dictLookup, ih]

theorem dictLookup_upsert_other {α : Type} {k k2 : String} (h : k2 ≠ k) (v : α) (d : Dict α) :
    dictLookup k2 (dictUpsert k v d) = dictLookup k2 d := by
  have hk : ¬ (k = k2) := fun hh => h hh.symm
  induction d with
  | nil => simp [dictUpsert, dictLookup, hk]
  | cons hd t ih =>
      obtain ⟨k3, v3⟩ := hd
      by_cases h3 : k3 = k
      · subst h3
        simp [dictUpsert, dictLookup, hk]
      · simp [dictUpsert, h3, dictLookup, ih]

theorem dictContains_upsert_self {α : Type} (k : String) (v : α) (d : Dict α) :
    dictContains k (dictUpsert k v d) = true := by
  simp [dictContains, dictLookup_upsert_self]

theorem dictContains_upsert_other {α : Type} {k k2 : String} (h : k2 ≠ k) (v : α) (d : Dict α) :
    dictContains k2 (dictUpsert k v d) = dictContains k2 d := by
  simp [dictContains, dictLookup_upsert_other h]

theorem dictLookup_setIfPresent_self {α : Type} (k : String) (v : α) (d : Dict α) :
    dictLookup k (setIfPresent k v d) = (dictLookup k d).map (fun _ => v) := by
  induction d with
  | nil => simp [setIfPresent, dictLookup]
  | cons h t ih =>
      obtain ⟨k2, v2⟩ := h
      by_cases hk : k2 = k <;> simp [setIfPresent, hk, dictLookup, ih]

theorem dictLookup_setIfPresent_other {α : Type} {k k2 : String} (h : k2 ≠ k) (v : α) (d : Dict α) :
    dictLookup k2 (setIfPresent k v d) = dictLookup k2 d := by
  have hk : ¬ (k = k2) := fun hh => h hh.symm
  induction d with
  | nil => simp [setIfPresent]
  | cons hd t ih =>
      obtain ⟨k3, v3⟩ := hd
      by_cases h3 : k3 = k
      · subst h3
        simp [setIfPresent, dictLookup, hk, ih]
      · simp [setIfPresent, h3, dictLookup, ih]

theorem dictLookup_removeKey_self {α : Type} (k : String) (d : Dict α) :
    dictLookup k (removeKey k d) = none := by
  induction d with
  | nil => rfl
  | cons h t ih =>
      obtain ⟨k2, v2⟩ := h
      by_cases hk : k2 = k <;> simp [removeKey, hk, dictLookup, ih]

theorem strMem_removeStr_self (n : String) (l : List String) :
    strMem n (removeStr n l) = false := by
  induction l with
  | nil => rfl
  | cons m t ih =>
      by_cases hm : m = n <;> simp [removeStr, hm, strMem, ih]

theorem strMem_iff_mem (n : String) (l : List String) :
    strMem n l = true ↔ n ∈ l := by
  induction l with
  | nil => simp [strMem]
  | cons m t ih =>
      by_cases hm : m = n
      · subst hm
        simp [strMem]
      · have hnm : ¬ n = m := fun hh => hm hh.symm
        simp [strMem, hm, hnm, ih]

theorem lookupSession_removeSessions (c : Nat) (ss : List (Nat × String)) :
    lookupSession c (removeSessions c ss) = none := by
  induction ss with
  | nil => rfl
  | cons h t ih =>
      obtain ⟨c2, n⟩ := h
      by_cases hc : c2 = c <;> simp [removeSessions, hc, lookupSession, ih]

theorem monStep_disconnect_of_none {s : MonState} {c : Nat}
    (h : lookupSession c s.sessions = none) : monStep s (.disconnect c) = s := by
  simp [monStep, h]

theorem sessions_disconnect_of_some {s : MonState} {c : Nat} {n : String}
    (h : lookupSession c s.sessions = some n) :
    (monStep s (.disconnect c)).sessions = removeSessions c s.sessions := by
  simp only [monStep, h]
  split <;> rfl

/-- C2: processing a disconnect for a channel whose session is already
gone is a no-op (the `ValueError` raised by
`manager.disconnect` aborts the handler before any state change), and
therefore disconnecting the same telemetry channel twice leaves the
whole Monitor Server state — directory, offline list and persisted
store — exactly as disconnecting it once does. -/
theorem c2_disconnect_idempotent :
    (∀ (s : MonState) (c : Nat), lookupSession c s.sessions = none →
      monStep s (.disconnect c) = s)
    ∧ (∀ (s : MonState) (c : Nat),
      monStep (monStep s (.disconnect c)) (.disconnect c) = monStep s (.disconnect c)) := by
  constructor
  · intro s c h
    exact monStep_disconnect_of_none h
  · intro s c
    cases h : lookupSession c s.sessions with
    | none =>
        rw [monStep_disconnect_of_none h, monStep_disconnect_of_none h]
    | some n =>
        apply monStep_disconnect_of_none
        rw [sessions_disconnect_of_some h]
        exact lookupSession_removeSessions c s.sessions

/-- C2 witness: the theorem applied at a concrete state — a single
disconnect of an unknown channel changes nothing. -/
theorem c2_disconnect_idempotent_witness :
    monStep initMon (.disconnect 0) = initMon :=
  c2_disconnect_idempotent.1 initMon 0 (by decide)

/-!
Session bookkeeping lemmas for the Connection Manager invariant.
-/

/-- Channel ids of the live sessions. -/
def cidsOfSessions (ss : List (Nat × String)) : List Nat :=
  ss.map (fun p => p.1)

theorem lookupSession_none_iff (c : Nat) (ss : List (Nat × String)) :
    lookupSession c ss = none ↔ c ∉ cidsOfSessions ss := by
  induction ss with
  | nil => simp [lookupSession, cidsOfSessions]
  | cons h t ih =>
      obtain ⟨c2, n⟩ := h
      have hcons : cidsOfSessions ((c2, n) :: t) = c2 :: cidsOfSessions t := rfl
      rw [hcons]
      by_cases hc : c2 = c
      · subst hc
        rw [lookupSession, if_pos rfl]
        simp
      · rw [lookupSession, if_neg hc, ih, List.mem_cons, not_or]
        constructor
        · intro hcm
          exact ⟨fun hh => hc hh.symm, hcm⟩
        · intro hcm
          exact hcm.2

theorem lookupSession_mem_names {c : Nat} {n : String} {ss : List (Nat × String)}
    (h : lookupSession c ss = some n) : n ∈ namesOfSessions ss := by
  induction ss with
  | nil => simp [lookupSession] at h
  | cons hd t ih =>
      obtain ⟨c2, n2⟩ := hd
      by_cases hc : c2 = c
      · rw [lookupSession, if_pos hc] at h
        injection h with he
        subst he
        exact List.mem_cons_self _ _
      · rw [lookupSession, if_neg hc] at h
        exact List.mem_cons_of_mem _ (ih h)

theorem removeSessions_sublist (c : Nat) (ss : List (Nat × String)) :
    List.Sublist (removeSessions c ss) ss := by
  induction ss with
  | nil => exact List.Sublist.refl []
  | cons h t ih =>
      obtain ⟨c2, n⟩ := h
      by_cases hc : c2 = c
      · rw [removeSessions, if_pos hc]
        exact List.Sublist.cons _ ih
      · rw [removeSessions, if_neg hc]
        exact List.Sublist.cons₂ _ ih

theorem removeSessions_of_not_mem {c : Nat} {ss : List (Nat × String)}
    (h : c ∉ cidsOfSessions ss) : removeSessions c ss = ss := by
  induction ss with
  | nil => rfl
  | cons hd t ih =>
      obtain ⟨c2, n⟩ := hd
      rw [show cidsOfSessions ((c2, n) :: t) = c2 :: cidsOfSessions t from rfl,
        List.mem_cons, not_or] at h
      have hc : ¬ c2 = c := fun hh => h.1 hh.symm
      rw [removeSessions, if_neg hc, ih h.2]

theorem mem_names_removeSessions {c : Nat} {n : String} {ss : List (Nat × String)}
    (hcid : (cidsOfSessions ss).Nodup) (hnames : (namesOfSessions ss).Nodup)
    (h : lookupSession c ss = some n) (m : String) :
    m ∈ namesOfSessions (removeSessions c ss) ↔ (m ∈ namesOfSessions ss ∧ m ≠ n) := by
  induction ss with
  | nil => simp [lookupSession] at h
  | cons hd t ih =>
      obtain ⟨c2, n2⟩ := hd
      rw [show cidsOfSessions ((c2, n2) :: t) = c2 :: cidsOfSessions t from rfl,
        List.nodup_cons] at hcid
      rw [show namesOfSessions ((c2, n2) :: t) = n2 :: namesOfSessions t from rfl,
        List.nodup_cons] at hnames
      obtain ⟨hc2, hcidt⟩ := hcid
      obtain ⟨hn2, hnamest⟩ := hnames
      rw [show namesOfSessions ((c2, n2) :: t) = n2 :: namesOfSessions t from rfl]
      by_cases hc : c2 = c
      · subst hc
        rw [lookupSession, if_pos rfl] at h
        injection h with he
        subst he
        rw [removeSessions, if_pos rfl, removeSessions_of_not_mem hc2]
        constructor
        · intro hm
          exact ⟨List.mem_cons_of_mem _ hm, fun he2 => hn2 (he2 ▸ hm)⟩
        · rintro ⟨hm, hne⟩
          rcases List.mem_cons.mp hm with he2 | hm2
          · exact absurd he2 hne
          · exact hm2
      · rw [lookupSession, if_neg hc] at h
        have hn2n : n2 ≠ n := fun he2 => hn2 (he2 ▸ lookupSession_mem_names h)
        rw [removeSessions, if_neg hc]
        rw [show namesOfSessions ((c2, n2) :: removeSessions c t)
            = n2 :: namesOfSessions (removeSessions c t) from rfl]
        rw [List.mem_cons, List.mem_cons, ih hcidt hnamest h]
        constructor
        · rintro (he2 | ⟨hm, hne⟩)
          · exact ⟨Or.inl he2, he2 ▸ hn2n⟩
          · exact ⟨Or.inr hm, hne⟩
        · rintro ⟨he2 | hm, hne⟩
          · exact Or.inl he2
          · exact Or.inr ⟨hm, hne⟩

/-!
Well-formed event sequences at the Monitor Server.  A `connect` carries
a fresh transport (its channel id is not an open session) and — for the
amended C1 — a name that has no other live channel; a `disconnect`
closes an open session; `/delclient` is an administrative action outside
the connect/disconnect event space of C1.
-/

def wfEvent (s : MonState) : MonEvent → Bool
  | .connect c n =>
      (lookupSession c s.sessions).isNone && !(decide (n ∈ namesOfSessions s.sessions))
  | .disconnect c => (lookupSession c s.sessions).isSome
  | .delClient _ => false

def wfTrace : MonState → List MonEvent → Bool
  | _, [] => true
  | s, e :: tr => wfEvent s e && wfTrace (monStep s e) tr

/-- Connection Manager invariant: the persisted online flag mirrors the
live sessions, session names and channel ids are duplicate-free, and
every live session's name is in the `registered_clients` cache. -/
def MonInv (s : MonState) : Prop :=
  (∀ n, onlineFlag s n = true ↔ n ∈ namesOfSessions s.sessions)
  ∧ (namesOfSessions s.sessions).Nodup
  ∧ (cidsOfSessions s.sessions).Nodup
  ∧ (∀ n, n ∈ namesOfSessions s.sessions → dictContains n s.registered = true)

theorem monInv_step {s : MonState} {e : MonEvent}
    (hinv : MonInv s) (hwf : wfEvent s e = true) : MonInv (monStep s e) := by
  obtain ⟨h1, h2, h3, h4⟩ := hinv
  cases e with
  | connect c n =>
      rw [show wfEvent s (.connect c n)
          = ((lookupSession c s.sessions).isNone
            && !(decide (n ∈ namesOfSessions s.sessions))) from rfl,
        Bool.and_eq_true] at hwf
      obtain ⟨hwf1, hwf2⟩ := hwf
      rw [Option.isNone_iff_eq_none] at hwf1
      have hnmem : n ∉ namesOfSessions s.sessions := by simpa using hwf2
      have hcmem : c ∉ cidsOfSessions s.sessions := (lookupSession_none_iff c s.sessions).mp hwf1
      refine ⟨?_, ?_, ?_, ?_⟩
      · intro m
        show (dictLookup m (dictUpsert n true s.dbOnline)).getD false = true
          ↔ m ∈ n :: namesOfSessions s.sessions
        by_cases hm : m = n
        · subst hm
          rw [dictLookup_upsert_self]
          simp
        · rw [dictLookup_upsert_other hm]
          have hbase := h1 m
          rw [show onlineFlag s m = (dictLookup m s.dbOnline).getD false from rfl] at hbase
          rw [hbase, List.mem_cons]
          simp [hm]
      · show (n :: namesOfSessions s.sessions).Nodup
        rw [List.nodup_cons]
        exact ⟨hnmem, h2⟩
      · show (c :: cidsOfSessions s.sessions).Nodup
        rw [List.nodup_cons]
        exact ⟨hcmem, h3⟩
      · intro m hm
        have hm2 : m ∈ n :: namesOfSessions s.sessions := hm
        show dictContains m (dictUpsert n true s.registered) = true
        by_cases hmn : m = n
        · subst hmn
          exact dictContains_upsert_self m true s.registered
        · rw [dictContains_upsert_other hmn true s.registered]
          rcases List.mem_cons.mp hm2 with he | hmm
          · exact absurd he hmn
          · exact h4 m hmm
  | disconnect c =>
      rw [show wfEvent s (.disconnect c) = (lookupSession c s.sessions).isSome from rfl,
        Option.isSome_iff_exists] at hwf
      obtain ⟨n, hn⟩ := hwf
      have hreg : dictContains n s.registered = true := h4 n (lookupSession_mem_names hn)
      have hmem : ∀ m, m ∈ namesOfSessions (removeSessions c s.sessions) ↔
          (m ∈ namesOfSessions s.sessions ∧ m ≠ n) := mem_names_removeSessions h3 h2 hn
      have hstep : monStep s (.disconnect c)
          = { sessions := removeSessions c s.sessions
              dbOnline := setIfPresent n false s.dbOnline
              registered := dictUpsert n false s.registered
              offlineList := s.offlineList ++ [n] } := by
        simp only [monStep, hn]
        rw [if_pos hreg]
      rw [hstep]
      refine ⟨?_, ?_, ?_, ?_⟩
      · intro m
        show (dictLookup m (setIfPresent n false s.dbOnline)).getD false = true
          ↔ m ∈ namesOfSessions (removeSessions c s.sessions)
        by_cases hm : m = n
        · subst hm
          rw [dictLookup_setIfPresent_self, hmem m]
          cases hdb : dictLookup m s.dbOnline <;> simp
        · rw [dictLookup_setIfPresent_other hm]
          have hbase := h1 m
          rw [show onlineFlag s m = (dictLookup m s.dbOnline).getD false from rfl] at hbase
          rw [hbase, hmem m]
          simp [hm]
      · show (namesOfSessions (removeSessions c s.sessions)).Nodup
        exact List.Nodup.sublist (List.Sublist.map _ (removeSessions_sublist c s.sessions)) h2
      · show (cidsOfSessions (removeSessions c s.sessions)).Nodup
        exact List.Nodup.sublist (List.Sublist.map _ (removeSessions_sublist c s.sessions)) h3
      · intro m hm
        have hm2 : m ∈ namesOfSessions (removeSessions c s.sessions) := hm
        have hm3 := ((hmem m).mp hm2).1
        show dictContains m (dictUpsert n false s.registered) = true
        by_cases hmn : m = n
        · subst hmn
          exact dictContains_upsert_self m false s.registered
        · rw [dictContains_upsert_other hmn false s.registered]
          exact h4 m hm3
  | delClient n => simp [wfEvent] at hwf

theorem monInv_init : MonInv initMon := by
  refine ⟨?_, ?_, ?_, ?_⟩
  · intro n
    simp [initMon, onlineFlag, dictLookup, namesOfSessions]
  · simp [initMon, namesOfSessions]
  · simp [initMon, cidsOfSessions]
  · intro n hn
    simp [initMon, namesOfSessions] at hn

theorem monInv_run : ∀ (tr : List MonEvent) (s : MonState),
    MonInv s → wfTrace s tr = true → MonInv (runMon s tr) := by
  intro tr
  induction tr with
  | nil => intro s h _; exact h
  | cons e tr ih =>
      intro s h hwf
      rw [wfTrace, Bool.and_eq_true] at hwf
      exact ih (monStep s e) (monInv_step h hwf.1) hwf.2

/-- C1 (amended): for every well-formed sequence of connect/disconnect
events — channel ids are fresh on connect, disconnects close open
sessions, and each agent name has at most one live telemetry channel at
any time — the persisted online flag for an agent is true iff a live
session currently exists for that name; moreover a connect never flips
any agent's flag from true to false, so transport closure is the only
signal that turns it off. -/
theorem c1_online_iff_live_session :
    (∀ tr, wfTrace initMon tr = true →
      ∀ n, onlineFlag (runMon initMon tr) n = true
        ↔ n ∈ namesOfSessions (runMon initMon tr).sessions)
    ∧ (∀ (s : MonState) (c : Nat) (m n : String),
      onlineFlag s n = true → onlineFlag (monStep s (.connect c m)) n = true) := by
  constructor
  · intro tr hwf n
    exact (monInv_run tr initMon monInv_init hwf).1 n
  · intro s c m n h
    by_cases hm : n = m
    · subst hm
      simp [monStep, onlineFlag, dictLookup_upsert_self]
    · simpa [monStep, onlineFlag, dictLookup_upsert_other hm] using h

/-- C1 counterexample: the claim quantifies over every sequence of
connect/disconnect events, but when agent A holds two live channels
(a reconnect race) and the older channel closes, the server marks A
offline in the store although a live telemetry channel for A still
exists — a stale-false window the original invariant forbids. -/
theorem c1_online_iff_live_session_cex :
    ¬ (onlineFlag
        (runMon initMon [MonEvent.connect 0 "A", MonEvent.connect 1 "A", MonEvent.disconnect 0]) "A"
          = true
       ↔ "A" ∈ namesOfSessions
        (runMon initMon
          [MonEvent.connect 0 "A", MonEvent.connect 1 "A", MonEvent.disconnect 0]).sessions) := by
  decide

/-- C1 witness: the amended theorem applied to the concrete well-formed
trace of a single connect. -/
theorem c1_online_iff_live_session_witness :
    onlineFlag (runMon initMon [MonEvent.connect 0 "A"]) "A" = true :=
  (c1_online_iff_live_session.1 [MonEvent.connect 0 "A"] (by decide) "A").mpr (by decide)

/-!
C4: the administrative delete (`delete_client` in `src/server/main.py`
over `ClientDAO.delete`).
-/

theorem dictContains_removeKey_self {α : Type} (k : String) (d : Dict α) :
    dictContains k (removeKey k d) = false := by
  simp [dictContains, dictLookup_removeKey_self]

theorem not_mem_removeStr_self (n : String) (l : List String) : n ∉ removeStr n l := by
  intro hmem
  have h := (strMem_iff_mem n (removeStr n l)).mpr hmem
  rw [strMem_removeStr_self] at h
  exact Bool.false_ne_true h

/-- C4 (amended): the administrative delete removes the AgentIdentity
from the persisted store, the in-memory directory and the offline list
whenever a persisted row exists, regardless of the agent's online
state; it never forces the agent offline first, and the live sessions
are left untouched, so a live session can survive the deletion of its
identity.  When no persisted row exists nothing changes. -/
theorem c4_delete_regardless_of_state : ∀ (s : MonState) (n : String),
    (monStep s (.delClient n)).sessions = s.sessions
    ∧ (dictContains n s.dbOnline = true →
        dictLookup n (monStep s (.delClient n)).dbOnline = none
        ∧ dictContains n (monStep s (.delClient n)).registered = false
        ∧ n ∉ (monStep s (.delClient n)).offlineList)
    ∧ (dictContains n s.dbOnline = false → monStep s (.delClient n) = s) := by
  intro s n
  by_cases h : dictContains n s.dbOnline = true
  · refine ⟨?_, ?_, ?_⟩
    · simp [monStep, h]
    · intro _
      refine ⟨?_, ?_, ?_⟩
      · simp [monStep, h, dictLookup_removeKey_self]
      · simp [monStep, h, dictContains_removeKey_self]
      · simp only [monStep, h, if_true]
        exact not_mem_removeStr_self n s.offlineList
    · intro h2
      rw [h] at h2
      cases h2
  · have h2 : dictContains n s.dbOnline = false := by
      cases hv : dictContains n s.dbOnline
      · rfl
      · exact absurd hv h
    refine ⟨?_, ?_, ?_⟩
    · simp [monStep, h2]
    · intro hcontra
      rw [h2] at hcontra
      cases hcontra
    · intro _
      simp [monStep, h2]

/-- State of the Monitor Server with agent A online over channel 0. -/
def c4state : MonState := runMon initMon [MonEvent.connect 0 "A"]

/-- C4 counterexample: agent A is currently Online with a live session,
yet the administrative delete removes its identity from the persisted
store immediately — it is not forced Offline first, and its live
session survives with its agent identity vanished. -/
theorem c4_delete_cex :
    onlineFlag c4state "A" = true
    ∧ (monStep c4state (.delClient "A")).sessions = [(0, "A")]
    ∧ dictLookup "A" (monStep c4state (.delClient "A")).dbOnline = none := by
  decide

/-- C4 witness: the amended theorem applied at the concrete Online
state. -/
theorem c4_delete_regardless_of_state_witness :
    dictLookup "A" (monStep c4state (.delClient "A")).dbOnline = none :=
  ((c4_delete_regardless_of_state c4state "A").2.1 (by decide)).1

/-!
Register Service (`src/register/main.py`).

The websocket endpoint keeps two module-level dicts,
`registered_clients : name -> Client` and `registered_servers : ip -> Server`,
plus the manager's `active_connections`.  Each received message is parsed
(`Command(**json.loads(data))` and then the payload models); a parse or
validation failure is the `malformed` case, a well-formed envelope with
an unrecognized `type` the `unknown` case.
-/

/-- The pydantic `Client` model of `common/models.py`. -/
structure RClient where
  name : String
  ip : String
  online : Bool
deriving DecidableEq

/-- Pydantic parse of a `client` payload: the `online` field defaults to
`True` when absent (`online: bool = True` in `common/models.py`). -/
def parseClientPayload (name ip : String) (onlineField : Option Bool) : RClient :=
  { name := name, ip := ip, online := onlineField.getD true }

structure RegState where
  clients : Dict RClient
  servers : Dict String
  conns : List Nat
deriving DecidableEq

inductive RegMsg
  | clientRegist (cl : RClient)
  | clientOnline (cl : RClient)
  | serverOnline (ip : String)
  | unknown (tag : String)
  | malformed
deriving DecidableEq

/-- What a handler may send back on the same channel: the
`server.model_dump()` reply carrying the monitor address, or the
`{"error": str(e)}` payload from the `except` branch. -/
inductive Reply
  | serverInfo (ip : String)
  | errorPayload
deriving DecidableEq

structure RegOut where
  st : RegState
  reply : Option Reply
  chanOpen : Bool
deriving DecidableEq

/-- One message of the register endpoint, from `websocket_endpoint` in
`src/register/main.py`:

* `CLIENT_REGIST` — upsert the client; if `registered_servers` is
  non-empty reply with `list(registered_servers.values())[0]` (the first
  server in dict insertion order), else send nothing;
* `CLIENT_ONLINE` — upsert the client, no reply;
* `SERVER_ONLINE` — upsert the server under its ip, no reply;
* unknown type — logged, no reply;
* malformed message — the `except` branch sends the error payload.

The receive loop continues after every branch, so the channel always
stays open. -/
def regHandle (s : RegState) : RegMsg → RegOut
  | .clientRegist cl =>
      match s.servers with
      | [] =>
          { st := { s with clients := dictUpsert cl.name cl s.clients }
            reply := none, chanOpen := true }
      | (ip, _) :: _ =>
          { st := { s with clients := dictUpsert cl.name cl s.clients }
            reply := some (.serverInfo ip), chanOpen := true }
  | .clientOnline cl =>
      { st := { s with clients := dictUpsert cl.name cl s.clients }
        reply := none, chanOpen := true }
  | .serverOnline ip =>
      { st := { s with servers := dictUpsert ip ip s.servers }
        reply := none, chanOpen := true }
  | .unknown _ => { st := s, reply := none, chanOpen := true }
  | .malformed => { st := s, reply := some .errorPayload, chanOpen := true }

/-- Closure of a registration channel: the `WebSocketDisconnect` branch
only calls `manager.disconnect` and logs — the directory dicts are
untouched. -/
def regClosed (c : Nat) (s : RegState) : RegState :=
  { s with conns := s.conns.filter (fun c2 => c2 != c) }

/-- The Register Service at startup. -/
def initReg : RegState := { clients := [], servers := [], conns := [] }

/-- C3: on CLIENT_REGIST the Register Service upserts the agent entry,
and a reply is sent on the same channel iff at least one monitor node is
known — zero known monitors yield no reply — and when exactly one
monitor address M was registered via SERVER_ONLINE the reply is exactly
M; the channel stays open throughout. -/
theorem c3_regist_upsert_and_reply : ∀ (s : RegState) (cl : RClient),
    dictLookup cl.name (regHandle s (.clientRegist cl)).st.clients = some cl
    ∧ ((regHandle s (.clientRegist cl)).reply = none ↔ s.servers = [])
    ∧ (∀ M, s.servers = [(M, M)] →
        (regHandle s (.clientRegist cl)).reply = some (.serverInfo M))
    ∧ (regHandle s (.clientRegist cl)).chanOpen = true := by
  intro s cl
  cases hs : s.servers with
  | nil =>
      refine ⟨?_, ?_, ?_, ?_⟩
      · simp only [regHandle, hs]
        exact dictLookup_upsert_self cl.name cl s.clients
      · simp [regHandle, hs]
      · intro M hM
        exact absurd hM (by simp)
      · simp [regHandle, hs]
  | cons p rest =>
      obtain ⟨ip, v⟩ := p
      refine ⟨?_, ?_, ?_, ?_⟩
      · simp only [regHandle, hs]
        exact dictLookup_upsert_self cl.name cl s.clients
      · simp [regHandle, hs]
      · intro M hM
        rw [List.cons.injEq] at hM
        obtain ⟨hp, hrest⟩ := hM
        rw [Prod.mk.injEq] at hp
        simp only [regHandle, hs, hp.1]
      · simp [regHandle, hs]

/-- C3 witness: after a single SERVER_ONLINE for address M, a
CLIENT_REGIST is answered with exactly M. -/
theorem c3_regist_upsert_and_reply_witness :
    (regHandle (regHandle initReg (.serverOnline "M")).st
      (.clientRegist { name := "A", ip := "1", online := true })).reply
      = some (.serverInfo "M") :=
  (c3_regist_upsert_and_reply (regHandle initReg (.serverOnline "M")).st
    { name := "A", ip := "1", online := true }).2.2.1 "M" (by decide)

/-- C10: the Register Service never takes an agent offline on its own:
CLIENT_REGIST and CLIENT_ONLINE store the agent entry exactly as sent
(with the online field defaulting to true when absent) without touching
other entries, and closing a registration channel — or any number of
them — changes no directory entry, so an agent stays listed online
indefinitely after its process dies. -/
theorem c10_register_never_offlines :
    (∀ (s : RegState) (c : Nat),
      (regClosed c s).clients = s.clients ∧ (regClosed c s).servers = s.servers)
    ∧ (∀ (s : RegState) (l : List Nat),
      (l.foldl (fun st c => regClosed c st) s).clients = s.clients)
    ∧ (∀ (s : RegState) (cl : RClient),
      dictLookup cl.name (regHandle s (.clientRegist cl)).st.clients = some cl)
    ∧ (∀ (s : RegState) (cl : RClient),
      dictLookup cl.name (regHandle s (.clientOnline cl)).st.clients = some cl)
    ∧ (∀ (s : RegState) (cl : RClient) (m : String), m ≠ cl.name →
      dictLookup m (regHandle s (.clientOnline cl)).st.clients = dictLookup m s.clients)
    ∧ (∀ (name ip : String), (parseClientPayload name ip none).online = true) := by
  refine ⟨?_, ?_, ?_, ?_, ?_, ?_⟩
  · intro s c
    exact ⟨rfl, rfl⟩
  · intro s l
    induction l generalizing s with
    | nil => rfl
    | cons c t ih =>
        rw [List.foldl_cons, ih (regClosed c s)]
        rfl
  · intro s cl
    cases hs : s.servers with
    | nil =>
        simp only [regHandle, hs]
        exact dictLookup_upsert_self cl.name cl s.clients
    | cons p rest =>
        obtain ⟨ip, v⟩ := p
        simp only [regHandle, hs]
        exact dictLookup_upsert_self cl.name cl s.clients
  · intro s cl
    exact dictLookup_upsert_self cl.name cl s.clients
  · intro s cl m hm
    exact dictLookup_upsert_other hm cl s.clients
  · intro name ip
    rfl

/-- C10 witness: storing agent A leaves the directory entry of another
name B unchanged. -/
theorem c10_register_never_offlines_witness :
    dictLookup "B"
      (regHandle initReg (.clientOnline { name := "A", ip := "1", online := true })).st.clients
      = dictLookup "B" initReg.clients :=
  c10_register_never_offlines.2.2.2.2.1 initReg
    { name := "A", ip := "1", online := true } "B" (by decide)

/-!
Telemetry reports (`common/models.py`, `common/database.py`).

Datetimes are modelled as naturals (epoch milliseconds); Python floats
as rationals — the claims only pass them through or compare them.
-/

/-- The pydantic `Report` model: name, os, load and cpus are required,
the six memory/disk gauges and the timestamp are `Optional` with
default `None`. -/
structure Report where
  name : String
  os : String
  load : Rat
  cpus : Nat
  memory_total : Option Rat
  memory_used : Option Rat
  memory_percent : Option Rat
  disk_total : Option Rat
  disk_used : Option Rat
  disk_percent : Option Rat
  timestamp : Option Nat
deriving DecidableEq

/-- A timestamp value on the wire: the ISO-8601 rendering of a datetime
(`timestamp.isoformat()` — an injective rendering, represented by the
datetime it encodes) or an epoch-milliseconds integer (the quick
system-report path).  Pydantic accepts both on read. -/
inductive TsWire
  | isoStr (t : Nat)
  | epochMs (n : Nat)
deriving DecidableEq

/-- The `report` mapping inside `CLIENT_REPORT` contents: every field of
the model is present as a key (`model_dump` keeps `None` values), the
timestamp as a `TsWire`. -/
structure WireReport where
  name : String
  os : String
  load : Rat
  cpus : Nat
  memory_total : Option Rat
  memory_used : Option Rat
  memory_percent : Option Rat
  disk_total : Option Rat
  disk_used : Option Rat
  disk_percent : Option Rat
  timestamp : Option TsWire
deriving DecidableEq

/-- `Command.create_client_report`: `report.model_dump()` with the
timestamp replaced by its `isoformat()` string when it is a datetime
(when it is `None` the falsy guard leaves it `None`). -/
def create_client_report (r : Report) : WireReport :=
  { name := r.name, os := r.os, load := r.load, cpus := r.cpus
    memory_total := r.memory_total, memory_used := r.memory_used
    memory_percent := r.memory_percent, disk_total := r.disk_total
    disk_used := r.disk_used, disk_percent := r.disk_percent
    timestamp := r.timestamp.map TsWire.isoStr }

/-- Pydantic's datetime validator: an ISO-8601 string parses back to the
datetime it renders; an epoch integer is converted to a datetime
(represented by its millisecond value). -/
def parseTsWire : TsWire → Nat
  | .isoStr t => t
  | .epochMs n => n

/-- `Report(**report_data)` on the Monitor side: each present field is
taken as sent, the timestamp parsed by the datetime validator. -/
def parseReport (w : WireReport) : Report :=
  { name := w.name, os := w.os, load := w.load, cpus := w.cpus
    memory_total := w.memory_total, memory_used := w.memory_used
    memory_percent := w.memory_percent, disk_total := w.disk_total
    disk_used := w.disk_used, disk_percent := w.disk_percent
    timestamp := w.timestamp.map parseTsWire }

/-- C7: encoding a TelemetrySample into `CLIENT_REPORT` contents on the
Agent side and decoding those contents on the Monitor side yields a
report equal field for field to the original; in particular optional
fields absent in the original are still absent after the round trip. -/
theorem c7_report_roundtrip : ∀ r : Report, parseReport (create_client_report r) = r := by
  intro r
  cases r with
  | mk name os load cpus mt mu mp dt du dp ts =>
      cases ts with
      | none => rfl
      | some t => rfl

/-!
The `records` table (`common/database.py`): every gauge column is
declared `nullable=False`, so an INSERT with a missing memory or disk
value violates a NOT NULL constraint and the commit raises.
-/

/-- A row of the `records` table: all columns NOT NULL. -/
structure RecordRow where
  name : String
  os : String
  load : Rat
  cpus : Nat
  memory_total : Rat
  memory_used : Rat
  memory_percent : Rat
  disk_total : Rat
  disk_used : Rat
  disk_percent : Rat
  timestamp : Nat
deriving DecidableEq

/-- `RecordDAO.create(db, report.to_db_dict())`: `to_db_dict` passes the
optional fields through (defaulting only the timestamp to `utcnow`,
here the parameter `now`); the INSERT succeeds iff every NOT NULL
column receives a value, otherwise SQLite raises `IntegrityError` at
commit and no row is stored. -/
def recordCreate (now : Nat) (r : Report) : Option RecordRow := do
  let mt ← r.memory_total
  let mu ← r.memory_used
  let mp ← r.memory_percent
  let dt ← r.disk_total
  let du ← r.disk_used
  let dp ← r.disk_percent
  pure { name := r.name, os := r.os, load := r.load, cpus := r.cpus
         memory_total := mt, memory_used := mu, memory_percent := mp
         disk_total := dt, disk_used := du, disk_percent := dp
         timestamp := r.timestamp.getD now }

/-- `SystemInfo.get_system_report` composed with `Report(**data)`: the
collector returns only name, os, load, cpus and an epoch-millisecond
timestamp, so after pydantic parsing every memory and disk field is
`None`. -/
def get_system_report (name os : String) (load : Rat) (cpus ts : Nat) : Report :=
  { name := name, os := os, load := load, cpus := cpus
    memory_total := none, memory_used := none, memory_percent := none
    disk_total := none, disk_used := none, disk_percent := none
    timestamp := some (parseTsWire (.epochMs ts)) }

/-!
The telemetry websocket endpoint of the Monitor Server
(`websocket_endpoint` in `src/server/main.py`), message level.
-/

/-- One message on a telemetry channel. -/
inductive TelMsg
  | clientOnline (cl : RClient)
  | clientReport (w : WireReport)
  | unknown (tag : String)
  | malformed
deriving DecidableEq

structure TelOut where
  dir : MonState
  store : List RecordRow
  reply : Option Reply
  chanOpen : Bool
deriving DecidableEq

/-- Processing of one message on telemetry channel `c`, from
`websocket_endpoint` in `src/server/main.py`:

* `CLIENT_ONLINE` — the connect handling of `monStep`;
* `CLIENT_REPORT` — parse the report and try
  `RecordDAO.create`; a store failure is caught by the inner
  `except`, only logged: the store is unchanged, nothing is sent, and
  the receive loop continues;
* unknown type — logged, dropped, no reply;
* malformed message — the outer `except` branch sends the
  `{"error": str(e)}` payload on the same channel and the loop
  continues. -/
def telHandle (dir : MonState) (store : List RecordRow) (c : Nat) (now : Nat) :
    TelMsg → TelOut
  | .clientOnline cl =>
      { dir := monStep dir (.connect c cl.name), store := store
        reply := none, chanOpen := true }
  | .clientReport w =>
      match recordCreate now (parseReport w) with
      | some row => { dir := dir, store := store ++ [row], reply := none, chanOpen := true }
      | none => { dir := dir, store := store, reply := none, chanOpen := true }
  | .unknown _ => { dir := dir, store := store, reply := none, chanOpen := true }
  | .malformed => { dir := dir, store := store, reply := some .errorPayload, chanOpen := true }

/-- C6 counterexample: a malformed message on the telemetry channel is
not merely logged and dropped — the Monitor Server sends the error
payload back on the very same telemetry channel. -/
theorem c6_telemetry_error_reply_cex :
    ¬ ((telHandle initMon [] 0 0 .malformed).reply = none) := by
  decide

/-- C6 (amended): on both the telemetry channel and the register channel
a malformed message is answered with an error payload on the same
channel and the channel stays open with state unchanged; an unknown
command type in a well-formed envelope is logged and dropped with no
reply on either channel. -/
theorem c6_protocol_error_handling :
    (∀ (dir : MonState) (store : List RecordRow) (c now : Nat),
      telHandle dir store c now .malformed
        = { dir := dir, store := store, reply := some .errorPayload, chanOpen := true })
    ∧ (∀ (dir : MonState) (store : List RecordRow) (c now : Nat) (tag : String),
      telHandle dir store c now (.unknown tag)
        = { dir := dir, store := store, reply := none, chanOpen := true })
    ∧ (∀ s : RegState,
      regHandle s .malformed = { st := s, reply := some .errorPayload, chanOpen := true })
    ∧ (∀ (s : RegState) (tag : String),
      regHandle s (.unknown tag) = { st := s, reply := none, chanOpen := true }) := by
  refine ⟨?_, ?_, ?_, ?_⟩
  · intro dir store c now
    rfl
  · intro dir store c now tag
    rfl
  · intro s
    rfl
  · intro s tag
    rfl

/-- C9: a decoded report whose memory or disk fields are absent cannot
be stored — the row schema declares them NOT NULL, so the INSERT
fails; the Monitor Server catches the failure, keeps the telemetry
channel open and silently drops the sample; and every sample built by
the bundled Agent's own metrics collector omits all six fields, so its
inserts always fail. -/
theorem c9_bundled_reports_never_stored :
    (∀ (now : Nat) (r : Report),
      (r.memory_total = none ∨ r.memory_used = none ∨ r.memory_percent = none
        ∨ r.disk_total = none ∨ r.disk_used = none ∨ r.disk_percent = none) →
      recordCreate now r = none)
    ∧ (∀ (dir : MonState) (store : List RecordRow) (c now : Nat) (w : WireReport),
      recordCreate now (parseReport w) = none →
      telHandle dir store c now (.clientReport w)
        = { dir := dir, store := store, reply := none, chanOpen := true })
    ∧ (∀ (name os : String) (load : Rat) (cpus ts now : Nat),
      (get_system_report name os load cpus ts).memory_total = none
      ∧ (get_system_report name os load cpus ts).disk_percent = none
      ∧ recordCreate now (get_system_report name os load cpus ts) = none) := by
  refine ⟨?_, ?_, ?_⟩
  · intro now r h
    cases hmt : r.memory_total <;> cases hmu : r.memory_used <;>
      cases hmp : r.memory_percent <;> cases hdt : r.disk_total <;>
      cases hdu : r.disk_used <;> cases hdp : r.disk_percent <;>
      simp_all [recordCreate]
  · intro dir store c now w h
    simp only [telHandle, h]
  · intro name os load cpus ts now
    exact ⟨rfl, rfl, rfl⟩

/-- C9 witness: a concrete report from the bundled collector is
rejected by the store and silently dropped, with the channel open. -/
theorem c9_bundled_reports_never_stored_witness :
    recordCreate 0 (get_system_report "A" "linux" 1 4 17) = none
    ∧ telHandle initMon [] 0 0
        (.clientReport (create_client_report (get_system_report "A" "linux" 1 4 17)))
      = { dir := initMon, store := [], reply := none, chanOpen := true } :=
  ⟨c9_bundled_reports_never_stored.1 0 (get_system_report "A" "linux" 1 4 17) (Or.inl rfl),
   c9_bundled_reports_never_stored.2.1 initMon [] 0 0
     (create_client_report (get_system_report "A" "linux" 1 4 17)) (by decide)⟩

/-!
The most-recent-sample-per-agent query, `RecordDAO.get_all_latest` in
`common/database.py`.  The written query is: a subquery computing
`(name, MAX(timestamp))` grouped by name, joined against `records` on
equality of both columns, returning every matching row (`.all()`).
However the aggregate is spelled `db.func.max(Record.timestamp)` where
`db` is a plain `sqlalchemy.orm.Session` handed out by `get_db` — and
`Session` has no attribute `func` (`func` is a module-level construct
of `sqlalchemy`; `db.func` is a Flask-SQLAlchemy extension-object
idiom).  Python evaluates that argument expression first, so every call
raises `AttributeError` before any query is built or issued.

`latestJoinRows` below renders the relational meaning of the written
join — the continuation that the raised lookup makes unreachable — and
`get_all_latest` renders the function as it executes: evaluate
`db.func` (raises), then the join.
-/

/-- Rows of one agent (`Record.name == subquery.c.name`). -/
def rowsFor (store : List RecordRow) (n : String) : List RecordRow :=
  store.filter (fun r => r.name == n)

/-- SQL `MAX(timestamp)` over a row list (0 on an empty group, which the
GROUP BY never produces). -/
def tsMax : List RecordRow → Nat
  | [] => 0
  | r :: t => max r.timestamp (tsMax t)

/-- The subquery's `max_timestamp` for one agent name. -/
def maxTsFor (store : List RecordRow) (n : String) : Nat :=
  tsMax (rowsFor store n)

/-- Distinct agent names (the GROUP BY). -/
def dedupStr : List String → List String
  | [] => []
  | n :: t => if strMem n t then dedupStr t else n :: dedupStr t

def namesOfStore (store : List RecordRow) : List String :=
  store.map (fun r => r.name)

/-- The subquery: one `(name, max_timestamp)` pair per distinct name. -/
def latestPairs (store : List RecordRow) : List (String × Nat) :=
  (dedupStr (namesOfStore store)).map (fun n => (n, maxTsFor store n))

/-- The join as written: every stored row whose `(name, timestamp)`
matches a subquery pair — all tying rows would be returned.  This code
path is unreachable in the source (see `get_all_latest`). -/
def latestJoinRows (store : List RecordRow) : List RecordRow :=
  store.filter (fun r => decide ((r.name, r.timestamp) ∈ latestPairs store))

/-- A Python exception escaping a DAO call. -/
inductive DbError
  | attributeError (attr : String)
deriving DecidableEq

/-- The expression `db.func` for a plain `Session` `db`: the attribute
does not exist, so the lookup raises `AttributeError`. -/
def sessionFunc : Except DbError Unit :=
  Except.error (.attributeError "func")

/-- `RecordDAO.get_all_latest(db)`: building the subquery evaluates
`db.func.max(Record.timestamp)` first, so the `AttributeError` from
`db.func` propagates out of the function before any query runs; the
written join is never reached and no rows are ever returned. -/
def get_all_latest (store : List RecordRow) : Except DbError (List RecordRow) := do
  let _ ← sessionFunc
  pure (latestJoinRows store)

theorem tsMax_ge {r : RecordRow} {l : List RecordRow} (h : r ∈ l) :
    r.timestamp ≤ tsMax l := by
  induction l with
  | nil => cases h
  | cons r2 t ih =>
      rcases List.mem_cons.mp h with he | hm
      · rw [he, tsMax]
        exact Nat.le_max_left _ _
      · rw [tsMax]
        exact Nat.le_trans (ih hm) (Nat.le_max_right _ _)

theorem tsMax_le {l : List RecordRow} {b : Nat} (h : ∀ r ∈ l, r.timestamp ≤ b) :
    tsMax l ≤ b := by
  induction l with
  | nil => exact Nat.zero_le b
  | cons r2 t ih =>
      rw [tsMax]
      exact Nat.max_le.mpr ⟨h r2 (List.mem_cons_self _ _), ih (fun r hr => h r (List.mem_cons_of_mem _ hr))⟩

theorem mem_dedupStr (n : String) (l : List String) : n ∈ dedupStr l ↔ n ∈ l := by
  induction l with
  | nil => simp [dedupStr]
  | cons m t ih =>
      by_cases hm : strMem m t = true
      · have hmem : m ∈ t := (strMem_iff_mem m t).mp hm
        rw [dedupStr, if_pos hm, ih, List.mem_cons]
        constructor
        · exact Or.inr
        · rintro (he | hn)
          · exact he ▸ hmem
          · exact hn
      · rw [dedupStr, if_neg hm, List.mem_cons, List.mem_cons, ih]

theorem mem_latestPairs (store : List RecordRow) (n : String) (ts : Nat) :
    (n, ts) ∈ latestPairs store ↔ (n ∈ namesOfStore store ∧ ts = maxTsFor store n) := by
  rw [latestPairs, List.mem_map]
  constructor
  · rintro ⟨m, hm, he⟩
    rw [Prod.mk.injEq] at he
    obtain ⟨h1, h2⟩ := he
    subst h1
    exact ⟨(mem_dedupStr m (namesOfStore store)).mp hm, h2.symm⟩
  · rintro ⟨hn, hts⟩
    exact ⟨n, (mem_dedupStr n (namesOfStore store)).mpr hn, by rw [hts]⟩

/-- Characterization of the unreachable written join: a row would be
returned iff its timestamp is maximal among the stored rows of its
agent name — all tying rows, with no last-write-wins selection. -/
theorem latestJoinRows_mem_iff : ∀ (store : List RecordRow) (r : RecordRow),
    r ∈ latestJoinRows store
    ↔ (r ∈ store ∧ ∀ r2 ∈ store, r2.name = r.name → r2.timestamp ≤ r.timestamp) := by
  intro store r
  rw [latestJoinRows, List.mem_filter, decide_eq_true_eq, mem_latestPairs]
  constructor
  · rintro ⟨hr, _, hts⟩
    refine ⟨hr, ?_⟩
    intro r2 hr2 hname
    have hmem : r2 ∈ rowsFor store r.name := by
      rw [rowsFor, List.mem_filter]
      exact ⟨hr2, beq_iff_eq.mpr hname⟩
    have h2 := tsMax_ge hmem
    rw [show tsMax (rowsFor store r.name) = maxTsFor store r.name from rfl, ← hts] at h2
    exact h2
  · rintro ⟨hr, hbound⟩
    refine ⟨hr, ?_, ?_⟩
    · rw [namesOfStore, List.mem_map]
      exact ⟨r, hr, rfl⟩
    · apply Nat.le_antisymm
      · apply tsMax_ge
        rw [rowsFor, List.mem_filter]
        exact ⟨hr, beq_iff_eq.mpr rfl⟩
      · apply tsMax_le
        intro r2 hr2
        rw [rowsFor, List.mem_filter] at hr2
        exact hbound r2 hr2.1 (beq_iff_eq.mp hr2.2)

/-- Two rows of agent A sharing the maximal timestamp, the second
inserted later. -/
def cexRow1 : RecordRow :=
  { name := "A", os := "x", load := 1, cpus := 4
    memory_total := 0, memory_used := 0, memory_percent := 0
    disk_total := 0, disk_used := 0, disk_percent := 0, timestamp := 5 }

def cexRow2 : RecordRow := { cexRow1 with load := 2 }

/-- C5 counterexample: at a concrete two-row store the query does not
return the later-inserted highest-timestamp sample of agent A — or any
row list at all — because the call raises `AttributeError` at the
`db.func` lookup before any query is issued. -/
theorem c5_get_all_latest_raises_cex :
    get_all_latest [cexRow1, cexRow2] = Except.error (DbError.attributeError "func")
    ∧ ¬ get_all_latest [cexRow1, cexRow2] = Except.ok [cexRow2] := by
  constructor
  · rfl
  · intro h
    exact Except.noConfusion h

/-- C5 (amended): every call to `RecordDAO.get_all_latest` raises
`AttributeError` — the aggregate is spelled `db.func.max` on a plain
`Session`, which has no `func` attribute — before any query is built,
so on every store the query returns no per-agent samples at all. -/
theorem c5_get_all_latest_raises :
    (∀ store : List RecordRow,
      get_all_latest store = Except.error (DbError.attributeError "func"))
    ∧ (∀ store : List RecordRow, (get_all_latest store).toOption = none) := by
  constructor
  · intro store
    rfl
  · intro store
    rfl

/-!
Agent report loop (`src/client/main.py`).

`periodic_report` is a small-step system.  Its suspension points are the
`await websocket.send(...)`, the cadence `await asyncio.sleep(1)` and
the error-path `await asyncio.sleep(1)`; metrics collection is
synchronous.  `task.cancel()` is called from `connect_to_server` while
the loop task is parked at a suspension point (the single-threaded event
loop runs the main task only then); once requested, the resumption of a
suspended await raises `CancelledError`, which the loop catches and
breaks on.  A send already in flight when cancellation is requested may
still be delivered (`sendRace`), but the loop then stops without
sending again.
-/

inductive RLoc
  | loopTop
  | sending
  | sleeping
  | errSleeping
  | stopped
deriving DecidableEq

/-- The locations at which the coroutine is parked in an `await`. -/
def RLoc.isSuspended : RLoc → Bool
  | .sending => true
  | .sleeping => true
  | .errSleeping => true
  | _ => false

/-- State of the report loop: location, whether `task.cancel()` has been
requested, and how many `CLIENT_REPORT` messages have been sent. -/
structure RepState where
  loc : RLoc
  cancelRequested : Bool
  sent : Nat
deriving DecidableEq

/-- Small steps of `periodic_report`:

* `collectOk` / `collectFail` — one synchronous
  `SystemInfo.get_system_report` + command build, reaching the send, or
  raising and reaching the error sleep;
* `sendOk` — the send await completes: one `CLIENT_REPORT` emitted,
  then the cadence sleep;
* `sendRace` — cancellation was requested while the send was in
  flight: the frame may still go out, then the loop stops;
* `sleepDone` / `errSleepDone` — a sleep completes, back to the loop
  top;
* `cancelDelivered` — a suspended await resumes after cancellation was
  requested: `CancelledError` is raised, caught, and the loop breaks. -/
inductive RStep : RepState → RepState → Prop
  | collectOk (s : RepState) : s.loc = .loopTop → s.cancelRequested = false →
      RStep s { s with loc := .sending }
  | collectFail (s : RepState) : s.loc = .loopTop → s.cancelRequested = false →
      RStep s { s with loc := .errSleeping }
  | sendOk (s : RepState) : s.loc = .sending → s.cancelRequested = false →
      RStep s { s with loc := .sleeping, sent := s.sent + 1 }
  | sendRace (s : RepState) : s.loc = .sending → s.cancelRequested = true →
      RStep s { s with loc := .stopped, sent := s.sent + 1 }
  | sleepDone (s : RepState) : s.loc = .sleeping → s.cancelRequested = false →
      RStep s { s with loc := .loopTop }
  | errSleepDone (s : RepState) : s.loc = .errSleeping → s.cancelRequested = false →
      RStep s { s with loc := .loopTop }
  | cancelDelivered (s : RepState) : s.loc.isSuspended = true → s.cancelRequested = true →
      RStep s { s with loc := .stopped }

/-- Client-side location of `connect_to_server`: streaming, the
`finally` block (`report_task.cancel()` already called, awaiting the
task), or past the block. -/
inductive CLoc
  | streaming
  | awaitingCancel
  | idle
deriving DecidableEq

structure AgentState where
  cliLoc : CLoc
  rep : RepState
deriving DecidableEq

/-- The combined system: the report loop runs while streaming or while
being awaited; channel closure enters the `finally` block, which first
calls `report_task.cancel()`; only when the loop has stopped does
`await report_task` return and the state machine proceed. -/
inductive AStep : AgentState → AgentState → Prop
  | repRun (a : AgentState) (r2 : RepState) : a.cliLoc = .streaming → RStep a.rep r2 →
      AStep a { a with rep := r2 }
  | repRunCleanup (a : AgentState) (r2 : RepState) : a.cliLoc = .awaitingCancel →
      RStep a.rep r2 → AStep a { a with rep := r2 }
  | chanClosed (a : AgentState) : a.cliLoc = .streaming →
      AStep a { cliLoc := .awaitingCancel, rep := { a.rep with cancelRequested := true } }
  | awaitDone (a : AgentState) : a.cliLoc = .awaitingCancel → a.rep.loc = .stopped →
      AStep a { a with cliLoc := .idle }

theorem reach_invariant {α : Type} {r : α → α → Prop} {P : α → Prop}
    (hs : ∀ x y, P x → r x y → P y) {a b : α}
    (h : Relation.ReflTransGen r a b) : P a → P b := by
  induction h with
  | refl => exact fun hp => hp
  | tail hab hbc ih => exact fun hp => hs _ _ (ih hp) hbc

theorem rstep_cancel {a b : RepState} (h : RStep a b) :
    b.cancelRequested = a.cancelRequested := by
  cases h <;> rfl

theorem rstep_sleep_cancel {a b : RepState} (h : RStep a b)
    (hc : a.cancelRequested = true)
    (hl : a.loc = RLoc.sleeping ∨ a.loc = RLoc.errSleeping ∨ a.loc = RLoc.stopped) :
    b.cancelRequested = true
    ∧ (b.loc = RLoc.sleeping ∨ b.loc = RLoc.errSleeping ∨ b.loc = RLoc.stopped)
    ∧ b.sent = a.sent := by
  cases h with
  | collectOk h1 h2 => simp [h1] at hl
  | collectFail h1 h2 => simp [h1] at hl
  | sendOk h1 h2 => simp [h1] at hl
  | sendRace h1 h2 => simp [h1] at hl
  | sleepDone h1 h2 => simp [hc] at h2
  | errSleepDone h1 h2 => simp [hc] at h2
  | cancelDelivered h1 h2 => exact ⟨hc, Or.inr (Or.inr rfl), rfl⟩

/-- The invariant carrying C8's first part. -/
def AInv (x : AgentState) : Prop :=
  (x.cliLoc = CLoc.awaitingCancel → x.rep.cancelRequested = true)
  ∧ (x.cliLoc = CLoc.idle → x.rep.loc = RLoc.stopped ∧ x.rep.cancelRequested = true)

theorem astep_inv {x y : AgentState} (hp : AInv x) (h : AStep x y) : AInv y := by
  cases h with
  | repRun r2 h1 h2 =>
      constructor
      · intro hac
        have hac2 : x.cliLoc = CLoc.awaitingCancel := hac
        rw [h1] at hac2
        exact absurd hac2 (by decide)
      · intro hid
        have hid2 : x.cliLoc = CLoc.idle := hid
        rw [h1] at hid2
        exact absurd hid2 (by decide)
  | repRunCleanup r2 h1 h2 =>
      constructor
      · intro _
        show r2.cancelRequested = true
        rw [rstep_cancel h2]
        exact hp.1 h1
      · intro hid
        have hid2 : x.cliLoc = CLoc.idle := hid
        rw [h1] at hid2
        exact absurd hid2 (by decide)
  | chanClosed h1 =>
      constructor
      · intro _
        rfl
      · intro hid
        exact absurd (show CLoc.awaitingCancel = CLoc.idle from hid) (by decide)
  | awaitDone h1 h2 =>
      constructor
      · intro hac
        exact absurd (show CLoc.idle = CLoc.awaitingCancel from hac) (by decide)
      · intro _
        exact ⟨h2, hp.1 h1⟩

/-- C8: whenever the Agent leaves the Streaming state and proceeds, the
report loop has been cancelled and awaited to completion — reaching
`idle` implies the loop is stopped and cancellation was requested — and
a report loop whose cancellation is requested while it is parked in a
sleep never emits another CLIENT_REPORT: its send counter stays
constant ever after. -/
theorem c8_report_loop_cancellation :
    (∀ a b : AgentState, Relation.ReflTransGen AStep a b →
      a.cliLoc = CLoc.streaming → b.cliLoc = CLoc.idle →
      b.rep.loc = RLoc.stopped ∧ b.rep.cancelRequested = true)
    ∧ (∀ r u : RepState, Relation.ReflTransGen RStep r u →
      r.cancelRequested = true →
      (r.loc = RLoc.sleeping ∨ r.loc = RLoc.errSleeping) →
      u.sent = r.sent) := by
  constructor
  · intro a b h ha hb
    have hp0 : AInv a := by
      constructor
      · intro hac
        rw [ha] at hac
        exact absurd hac (by decide)
      · intro hid
        rw [ha] at hid
        exact absurd hid (by decide)
    exact (reach_invariant (fun x y hx hxy => astep_inv hx hxy) h hp0).2 hb
  · intro r u h hc hl
    have hres := reach_invariant
      (P := fun v => v.cancelRequested = true
        ∧ (v.loc = RLoc.sleeping ∨ v.loc = RLoc.errSleeping ∨ v.loc = RLoc.stopped)
        ∧ v.sent = r.sent)
      (fun x y hx hxy => by
        obtain ⟨hx1, hx2, hx3⟩ := hx
        obtain ⟨hy1, hy2, hy3⟩ := rstep_sleep_cancel hxy hx1 hx2
        exact ⟨hy1, hy2, hy3.trans hx3⟩)
      h ⟨hc, by rcases hl with h2 | h2; exact Or.inl h2; exact Or.inr (Or.inl h2), rfl⟩
    exact hres.2.2

/-- C8 witness: a concrete run — streaming with the loop asleep, the
channel closes, cancellation is delivered mid-sleep, the await returns —
reaches idle with the loop stopped; and a loop cancelled mid-sleep keeps
its send counter unchanged. -/
theorem c8_report_loop_cancellation_witness :
    ((⟨CLoc.idle, ⟨RLoc.stopped, true, 2⟩⟩ : AgentState).rep.loc = RLoc.stopped
      ∧ (⟨CLoc.idle, ⟨RLoc.stopped, true, 2⟩⟩ : AgentState).rep.cancelRequested = true)
    ∧ (⟨RLoc.stopped, true, 5⟩ : RepState).sent = (⟨RLoc.sleeping, true, 5⟩ : RepState).sent := by
  constructor
  · have s1 : AStep ⟨CLoc.streaming, ⟨RLoc.sleeping, false, 2⟩⟩
        ⟨CLoc.awaitingCancel, ⟨RLoc.sleeping, true, 2⟩⟩ :=
      AStep.chanClosed ⟨CLoc.streaming, ⟨RLoc.sleeping, false, 2⟩⟩ rfl
    have s2 : AStep ⟨CLoc.awaitingCancel, ⟨RLoc.sleeping, true, 2⟩⟩
        ⟨CLoc.awaitingCancel, ⟨RLoc.stopped, true, 2⟩⟩ :=
      AStep.repRunCleanup ⟨CLoc.awaitingCancel, ⟨RLoc.sleeping, true, 2⟩⟩
        ⟨RLoc.stopped, true, 2⟩ rfl
        (RStep.cancelDelivered ⟨RLoc.sleeping, true, 2⟩ rfl rfl)
    have s3 : AStep ⟨CLoc.awaitingCancel, ⟨RLoc.stopped, true, 2⟩⟩
        ⟨CLoc.idle, ⟨RLoc.stopped, true, 2⟩⟩ :=
      AStep.awaitDone ⟨CLoc.awaitingCancel, ⟨RLoc.stopped, true, 2⟩⟩ rfl rfl
    have hreach : Relation.ReflTransGen AStep
        ⟨CLoc.streaming, ⟨RLoc.sleeping, false, 2⟩⟩ ⟨CLoc.idle, ⟨RLoc.stopped, true, 2⟩⟩ :=
      Relation.ReflTransGen.tail (Relation.ReflTransGen.tail
        (Relation.ReflTransGen.single s1) s2) s3
    exact c8_report_loop_cancellation.1 _ _ hreach rfl rfl
  · have st : RStep ⟨RLoc.sleeping, true, 5⟩ ⟨RLoc.stopped, true, 5⟩ :=
      RStep.cancelDelivered ⟨RLoc.sleeping, true, 5⟩ rfl rfl
    exact c8_report_loop_cancellation.2 ⟨RLoc.sleeping, true, 5⟩ ⟨RLoc.stopped, true, 5⟩
      (Relation.ReflTransGen.single st) rfl (Or.inl rfl)

end PM
